import Mathlib

/-!
Shallow embedding of `src/reporters/teamsReporter.ts`: a Playwright reporter
that aggregates per-test attempts into a classification (passed / failed /
flaky / skipped / timed-out) and delivers a summary card to a Teams webhook
with bounded retries and exponential backoff.
-/

namespace TeamsReporter

/-- Attempt status, as in Playwright's `TestResult.status` restricted to the
statuses the spec's data model names: passed, failed, skipped, timedOut. -/
inductive TStatus
  | passed
  | failed
  | skipped
  | timedOut
deriving DecidableEq, Repr

/-- Source location of a test (`test.location`): file and line. -/
structure TLocation where
  file : String
  line : Nat
deriving DecidableEq, Repr

/-- Error info attached to a result (`result.error`); both fields optional,
mirroring `error?.message` / `error?.stack`. -/
structure TError where
  message : Option String
  stack : Option String
deriving DecidableEq, Repr

/-- One recorded attempt (`TestResult`): status, retry index, optional error. -/
structure TestResult where
  status : TStatus
  retry : Nat
  error : Option TError
deriving DecidableEq, Repr

/-- A test case (`TestCase`): stable id, title, optional location. -/
structure TestCase where
  id : String
  title : String
  location : Option TLocation
deriving DecidableEq, Repr

/-- One entry of the `testAttempts` map: the test and its ordered attempts. -/
structure StoreEntry where
  test : TestCase
  results : List TestResult
deriving DecidableEq, Repr

/-- The `testResults` counter record. -/
structure TestResults where
  passed : Nat
  failed : Nat
  skipped : Nat
  flaky : Nat
  timedout : Nat
deriving DecidableEq, Repr

/-- An element of `failedTests`: title, error, stack, location. -/
structure FailedDetail where
  title : String
  error : String
  stack : String
  location : String
deriving DecidableEq, Repr

/-- An element of `flakyTests`: title and attempt count. -/
structure FlakyDetail where
  title : String
  attempts : Nat
deriving DecidableEq, Repr

/-- Mutable reporter state touched by `processTestResults`. -/
structure ReporterState where
  testResults : TestResults
  failedTests : List FailedDetail
  flakyTests : List FlakyDetail
deriving DecidableEq, Repr

/-- JavaScript `a || b` on an optional string: `undefined` and `""` are falsy. -/
def jsOr (s : Option String) (dflt : String) : String :=
  match s with
  | none => dflt
  | some v => if v = "" then dflt else v

/-- Recursion for `jsSplit`: split the remaining characters at `sep`,
accumulating the current chunk in reverse. -/
def jsSplitAux (sep : Char) : List Char → List Char → List String
  | [], acc => [String.mk acc.reverse]
  | c :: cs, acc =>
    if c = sep then String.mk acc.reverse :: jsSplitAux sep cs []
    else jsSplitAux sep cs (c :: acc)

/-- JavaScript `String.prototype.split` with a one-character separator:
`"a\nb".split('\n') = ["a","b"]`, `"".split('\n') = [""]`. -/
def jsSplit (s : String) (sep : Char) : List String :=
  jsSplitAux sep s.data []

/-- `onTestEnd`: append the result to the entry for `test.id`, creating the
entry if absent (the `testAttempts` Map modelled as an id-keyed list). -/
def onTestEnd (store : List StoreEntry) (test : TestCase) (result : TestResult) :
    List StoreEntry :=
  if store.any (fun e => e.test.id == test.id) then
    store.map (fun e =>
      if e.test.id == test.id then { e with results := e.results ++ [result] } else e)
  else
    store ++ [{ test := test, results := [result] }]

/-- Build the attempt store from a run's sequence of test-end events. -/
def buildStore (evs : List (TestCase × TestResult)) : List StoreEntry :=
  evs.foldl (fun s ev => onTestEnd s ev.1 ev.2) []

/-- `captureFailedTest`: error message with placeholder default, stack trace
truncated to its first 3 lines, location rendered `file:line` or placeholder. -/
def captureFailedTest (test : TestCase) (result : TestResult) : FailedDetail :=
  let errorMessage := jsOr (result.error.bind TError.message) "No error message available"
  let stackTrace := (result.error.bind TError.stack).getD ""
  let stackLines := String.intercalate "\n" ((jsSplit stackTrace '\n').take 3)
  let location :=
    match test.location with
    | some loc => loc.file ++ ":" ++ toString loc.line
    | none => "Unknown location"
  { title := test.title, error := errorMessage, stack := stackLines, location := location }

/-- The body of the `processTestResults` loop for one map entry. -/
def processEntry (st : ReporterState) (e : StoreEntry) : ReporterState :=
  match e.results.getLast? with
  | none => st
  | some finalResult =>
    let hadFailures :=
      e.results.any (fun r => r.status == TStatus.failed || r.status == TStatus.timedOut)
    if finalResult.status = TStatus.passed then
      if hadFailures = true ∧ 1 < e.results.length then
        { st with
          testResults := { st.testResults with flaky := st.testResults.flaky + 1 },
          flakyTests := st.flakyTests ++ [{ title := e.test.title, attempts := e.results.length }] }
      else
        { st with testResults := { st.testResults with passed := st.testResults.passed + 1 } }
    else if finalResult.status = TStatus.failed then
      { st with
        testResults := { st.testResults with failed := st.testResults.failed + 1 },
        failedTests := st.failedTests ++ [captureFailedTest e.test finalResult] }
    else if finalResult.status = TStatus.skipped then
      { st with testResults := { st.testResults with skipped := st.testResults.skipped + 1 } }
    else if finalResult.status = TStatus.timedOut then
      { st with
        testResults := { st.testResults with timedout := st.testResults.timedout + 1 },
        failedTests := st.failedTests ++ [captureFailedTest e.test finalResult] }
    else
      st

/-- All counters start at zero. -/
def initialResults : TestResults :=
  { passed := 0, failed := 0, skipped := 0, flaky := 0, timedout := 0 }

/-- Reporter state before `processTestResults` runs. -/
def initialState : ReporterState :=
  { testResults := initialResults, failedTests := [], flakyTests := [] }

/-- `processTestResults`: fold the per-entry classification over the store. -/
def processTestResults (store : List StoreEntry) : ReporterState :=
  store.foldl processEntry initialState

/-- Sum of the five classification counters. -/
def sumCounts (tr : TestResults) : Nat :=
  tr.passed + tr.failed + tr.skipped + tr.flaky + tr.timedout

/-! ### Delivery client (`sendWebhookWithRetry`) -/

/-- Outcome of one `axios.post`: an HTTP response with a status code, or a
transport-level failure (timeout, DNS failure, connection refused, other
I/O error).  With `validateStatus: status < 500`, a received response with
status ≥ 500 is thrown by axios and lands in the same `catch` block as a
transport failure. -/
inductive HttpResult
  | ok (status : Nat)
  | transportError
deriving DecidableEq, Repr

/-- Terminal outcome of a delivery run. -/
inductive DeliveryOutcome
  | Delivered
  | Abandoned
deriving DecidableEq, Repr

/-- Observable trace of one delivery run: terminal outcome, number of send
attempts performed, and the backoff waits (in ms) performed in order. -/
structure DeliveryTrace where
  outcome : DeliveryOutcome
  attempts : Nat
  waits : List Nat
deriving DecidableEq, Repr

/-- `Math.min(1000 * Math.pow(2, attempt - 1), MAX_BACKOFF_MS)` with
`MAX_BACKOFF_MS = 5000`. -/
def backoffWait (attempt : Nat) : Nat :=
  min (1000 * 2 ^ (attempt - 1)) 5000

/-- The retry loop of `sendWebhookWithRetry`.  `attempt` is the 1-based loop
counter, `remaining = maxRetries + 1 - attempt` the iterations left,
`attemptsSoFar`/`waits` the trace accumulators.  Branches mirror the source:
a resolved response (status < 500) returns on 2xx (Delivered) and on 4xx
(immediate abandon); other resolved statuses fall through to the next
iteration with no wait; a thrown outcome (status ≥ 500 or transport failure)
backs off `backoffWait attempt` ms when `attempt < maxRetries` and otherwise
lets the loop end. -/
def sendWebhookGo (responses : Nat → HttpResult) :
    Nat → Nat → Nat → List Nat → DeliveryTrace
  | _, 0, attemptsSoFar, waits =>
    { outcome := DeliveryOutcome.Abandoned, attempts := attemptsSoFar, waits := waits }
  | attempt, r + 1, attemptsSoFar, waits =>
    let n := attemptsSoFar + 1
    match responses attempt with
    | HttpResult.ok status =>
      if 500 ≤ status then
        if r = 0 then
          { outcome := DeliveryOutcome.Abandoned, attempts := n, waits := waits }
        else
          sendWebhookGo responses (attempt + 1) r n (waits ++ [backoffWait attempt])
      else if 200 ≤ status ∧ status < 300 then
        { outcome := DeliveryOutcome.Delivered, attempts := n, waits := waits }
      else if 400 ≤ status then
        { outcome := DeliveryOutcome.Abandoned, attempts := n, waits := waits }
      else
        sendWebhookGo responses (attempt + 1) r n waits
    | HttpResult.transportError =>
      if r = 0 then
        { outcome := DeliveryOutcome.Abandoned, attempts := n, waits := waits }
      else
        sendWebhookGo responses (attempt + 1) r n (waits ++ [backoffWait attempt])

/-- `sendWebhookWithRetry(messageCard, maxRetries)`, with the network
abstracted as a map from attempt number to its `HttpResult`. -/
def sendWebhookWithRetry (responses : Nat → HttpResult) (maxRetries : Nat) : DeliveryTrace :=
  sendWebhookGo responses 1 maxRetries 0 []

/-- A retryable outcome: thrown by axios — HTTP status ≥ 500 or a
transport-level failure. -/
def isRetryable : HttpResult → Prop
  | HttpResult.ok status => 500 ≤ status
  | HttpResult.transportError => True

instance (o : HttpResult) : Decidable (isRetryable o) := by
  cases o <;> simp [isRetryable] <;> infer_instance

/-- A success outcome: an HTTP 2xx response. -/
def isSuccess : HttpResult → Prop
  | HttpResult.ok status => 200 ≤ status ∧ status < 300
  | HttpResult.transportError => False

/-- A pass-through outcome: a resolved non-2xx response below 400 (1xx or
3xx); neither success, nor client error, nor thrown. -/
def isPassThrough : HttpResult → Prop
  | HttpResult.ok status => status < 400 ∧ ¬(200 ≤ status ∧ status < 300)
  | HttpResult.transportError => False

/-! ### Payload pieces (`buildMessageCard`, status, color, truncation) -/

/-- `getOverallStatus`: emoji and text. -/
def getOverallStatus (tr : TestResults) : String × String :=
  if 0 < tr.failed ∨ 0 < tr.timedout then ("❌", "FAILED")
  else if 0 < tr.flaky then ("⚠️", "UNSTABLE")
  else ("✅", "PASSED")

/-- `getThemeColor`: red / yellow / green hex values. -/
def getThemeColor (tr : TestResults) : String :=
  if 0 < tr.failed ∨ 0 < tr.timedout then "dc3545"
  else if 0 < tr.flaky then "ffc107"
  else "28a745"

/-- JavaScript `Number.prototype.toFixed(1)` on the exact rational
`num / den` (nonnegative): the integer `n` with `n/10` nearest, larger on
ties, rendered `⌊n/10⌋.n%10`. -/
def toFixed1 (num den : Nat) : String :=
  let n := (20 * num + den) / (2 * den)
  toString (n / 10) ++ "." ++ toString (n % 10)

/-- The facts block of the first card section built by `buildMessageCard`:
total, passed, total failed (= failed + timedout), skipped, flaky, and the
pass rate `((passed + flaky) / total * 100).toFixed(1)` or `"0.0"` when the
total is zero. -/
def summaryFacts (tr : TestResults) : List (String × String) :=
  let totalTests := tr.passed + tr.failed + tr.skipped + tr.flaky + tr.timedout
  let totalFailed := tr.failed + tr.timedout
  let passRate :=
    if 0 < totalTests then toFixed1 ((tr.passed + tr.flaky) * 100) totalTests else "0.0"
  [("📊 Total Tests:", toString totalTests),
   ("✅ Passed:", toString tr.passed),
   ("❌ Failed:", toString totalFailed),
   ("⏭️ Skipped:", toString tr.skipped),
   ("⚠️ Flaky:", toString tr.flaky),
   ("📈 Pass Rate:", passRate ++ "%")]

/-- `truncateError`: identity up to `maxLength`, otherwise the first
`maxLength - 3` characters followed by `"..."`. -/
def truncateError (error : String) (maxLength : Nat) : String :=
  if error.length ≤ maxLength then error
  else error.take (maxLength - 3) ++ "..."

/-! ### Run-end orchestration (`onEnd`) -/

/-- What `onEnd` does, observably: either the deliberate skip when no webhook
URL is configured (nothing built, nothing sent), or a delivery of the built
facts with the retry client at `maxRetries = 3`. -/
inductive EndOutcome
  | skippedNoWebhook
  | delivered (facts : List (String × String)) (trace : DeliveryTrace)
deriving DecidableEq, Repr

/-- `onEnd`: return early (skip) when the webhook URL is unset — or the empty
string, which is falsy in JavaScript; otherwise classify the store, build the
card and send it with `sendWebhookWithRetry(card, 3)`. -/
def onEnd (webhookUrl : Option String) (store : List StoreEntry)
    (responses : Nat → HttpResult) : EndOutcome :=
  match webhookUrl with
  | none => EndOutcome.skippedNoWebhook
  | some u =>
    if u = "" then EndOutcome.skippedNoWebhook
    else
      let st := processTestResults store
      EndOutcome.delivered (summaryFacts st.testResults) (sendWebhookWithRetry responses 3)

/-! ### Delivery-client lemmas -/

/-- Exhausted budget: the loop ends with Abandoned and no further effect. -/
theorem sendWebhookGo_zero (responses : Nat → HttpResult) (attempt acc : Nat)
    (waits : List Nat) :
    sendWebhookGo responses attempt 0 acc waits =
      { outcome := DeliveryOutcome.Abandoned, attempts := acc, waits := waits } := rfl

/-- One loop iteration on a retryable outcome: abandon when it was the last
budgeted attempt, otherwise back off and continue. -/
theorem sendWebhookGo_retryable_step (responses : Nat → HttpResult) (attempt r acc : Nat)
    (waits : List Nat) (h : isRetryable (responses attempt)) :
    sendWebhookGo responses attempt (r + 1) acc waits =
      if r = 0 then
        { outcome := DeliveryOutcome.Abandoned, attempts := acc + 1, waits := waits }
      else sendWebhookGo responses (attempt + 1) r (acc + 1) (waits ++ [backoffWait attempt]) := by
  cases ho : responses attempt with
  | ok status =>
    rw [ho] at h
    simp only [isRetryable] at h
    simp [sendWebhookGo, ho, h]
  | transportError =>
    simp [sendWebhookGo, ho]

/-- One loop iteration on a 2xx response: Delivered immediately. -/
theorem sendWebhookGo_success_step (responses : Nat → HttpResult) (attempt r acc : Nat)
    (waits : List Nat) (h : isSuccess (responses attempt)) :
    sendWebhookGo responses attempt (r + 1) acc waits =
      { outcome := DeliveryOutcome.Delivered, attempts := acc + 1, waits := waits } := by
  cases ho : responses attempt with
  | ok status =>
    rw [ho] at h
    simp only [isSuccess] at h
    have h500 : ¬ 500 ≤ status := by omega
    simp [sendWebhookGo, ho, h500, h]
  | transportError =>
    rw [ho] at h
    exact absurd h (by simp [isSuccess])

/-- One loop iteration on a 4xx response: Abandoned immediately, no wait. -/
theorem sendWebhookGo_clientError_step (responses : Nat → HttpResult) (attempt r acc s : Nat)
    (waits : List Nat) (ho : responses attempt = HttpResult.ok s)
    (h4 : 400 ≤ s) (h5 : s < 500) :
    sendWebhookGo responses attempt (r + 1) acc waits =
      { outcome := DeliveryOutcome.Abandoned, attempts := acc + 1, waits := waits } := by
  have h500 : ¬ 500 ≤ s := by omega
  have h2xx : ¬ (200 ≤ s ∧ s < 300) := by omega
  simp [sendWebhookGo, ho, h500, h2xx, h4]

/-- One loop iteration on a pass-through response (1xx/3xx): continue to the
next attempt with no wait. -/
theorem sendWebhookGo_passThrough_step (responses : Nat → HttpResult) (attempt r acc : Nat)
    (waits : List Nat) (h : isPassThrough (responses attempt)) :
    sendWebhookGo responses attempt (r + 1) acc waits =
      sendWebhookGo responses (attempt + 1) r (acc + 1) waits := by
  cases ho : responses attempt with
  | ok status =>
    rw [ho] at h
    obtain ⟨hlt, h2xx⟩ := h
    have h500 : ¬ 500 ≤ status := by omega
    have h400 : ¬ 400 ≤ status := by omega
    simp [sendWebhookGo, ho, h500, h2xx, h400]
  | transportError =>
    rw [ho] at h
    exact absurd h (by simp [isPassThrough])

/-- Retryable outcomes on every budgeted attempt: Abandoned after exactly the
whole budget, with one backoff wait after each attempt but the last. -/
theorem sendWebhookGo_all_retryable (responses : Nat → HttpResult) :
    ∀ (r attempt acc : Nat) (waits : List Nat),
      (∀ i, i < r → isRetryable (responses (attempt + i))) →
      sendWebhookGo responses attempt r acc waits =
        { outcome := DeliveryOutcome.Abandoned, attempts := acc + r,
          waits := waits ++ (List.range' attempt (r - 1)).map backoffWait } := by
  intro r
  induction r with
  | zero =>
    intro attempt acc waits _
    simp [sendWebhookGo_zero]
  | succ r ih =>
    intro attempt acc waits h
    have h0 : isRetryable (responses attempt) := by simpa using h 0 (Nat.succ_pos r)
    rw [sendWebhookGo_retryable_step responses attempt r acc waits h0]
    by_cases hr : r = 0
    · subst hr
      simp
    · rw [if_neg hr]
      have hrec := ih (attempt + 1) (acc + 1) (waits ++ [backoffWait attempt])
        (fun i hi => by
          have := h (i + 1) (by omega)
          have harith : attempt + (i + 1) = attempt + 1 + i := by omega
          rwa [harith] at this)
      rw [hrec]
      obtain ⟨r₂, rfl⟩ : ∃ r₂, r = r₂ + 1 := ⟨r - 1, by omega⟩
      simp [List.range'_succ]
      omega

/-- Pass-through responses on every budgeted attempt: Abandoned after the
whole budget with no waits at all. -/
theorem sendWebhookGo_all_passThrough (responses : Nat → HttpResult) :
    ∀ (r attempt acc : Nat) (waits : List Nat),
      (∀ i, i < r → isPassThrough (responses (attempt + i))) →
      sendWebhookGo responses attempt r acc waits =
        { outcome := DeliveryOutcome.Abandoned, attempts := acc + r, waits := waits } := by
  intro r
  induction r with
  | zero =>
    intro attempt acc waits _
    simp [sendWebhookGo_zero]
  | succ r ih =>
    intro attempt acc waits h
    have h0 : isPassThrough (responses attempt) := by simpa using h 0 (Nat.succ_pos r)
    rw [sendWebhookGo_passThrough_step responses attempt r acc waits h0]
    rw [ih (attempt + 1) (acc + 1) waits
      (fun i hi => by
        have := h (i + 1) (by omega)
        have harith : attempt + (i + 1) = attempt + 1 + i := by omega
        rwa [harith] at this)]
    congr 1
    omega

/-- Skipping a prefix of `j` retryable attempts: the loop state after them is
attempt `attempt + j`, budget reduced by `j`, one wait recorded per skipped
attempt. -/
theorem sendWebhookGo_skip_retryables (responses : Nat → HttpResult) :
    ∀ (j r attempt acc : Nat) (waits : List Nat), j < r →
      (∀ i, i < j → isRetryable (responses (attempt + i))) →
      sendWebhookGo responses attempt r acc waits =
        sendWebhookGo responses (attempt + j) (r - j) (acc + j)
          (waits ++ (List.range' attempt j).map backoffWait) := by
  intro j
  induction j with
  | zero =>
    intro r attempt acc waits _ _
    simp
  | succ j ih =>
    intro r attempt acc waits hj h
    obtain ⟨r₂, rfl⟩ : ∃ r₂, r = r₂ + 1 := ⟨r - 1, by omega⟩
    have h0 : isRetryable (responses attempt) := by simpa using h 0 (Nat.succ_pos j)
    rw [sendWebhookGo_retryable_step responses attempt r₂ acc waits h0,
      if_neg (by omega : r₂ ≠ 0)]
    have hrec := ih r₂ (attempt + 1) (acc + 1) (waits ++ [backoffWait attempt]) (by omega)
      (fun i hi => by
        have := h (i + 1) (by omega)
        have harith : attempt + (i + 1) = attempt + 1 + i := by omega
        rwa [harith] at this)
    rw [hrec]
    have h1 : attempt + 1 + j = attempt + (j + 1) := by omega
    have h2 : r₂ - j = r₂ + 1 - (j + 1) := by omega
    have h3 : acc + 1 + j = acc + (j + 1) := by omega
    rw [h1, h2, h3, List.range'_succ]
    simp

/-- Delivery reaching a 2xx response at attempt `k` after retryable failures:
Delivered with exactly `k` attempts and one backoff per earlier attempt. -/
theorem deliverSuccessAt (responses : Nat → HttpResult) (maxRetries k : Nat)
    (hk1 : 1 ≤ k) (hk2 : k ≤ maxRetries)
    (hpre : ∀ a, 1 ≤ a → a < k → isRetryable (responses a))
    (hs : isSuccess (responses k)) :
    sendWebhookWithRetry responses maxRetries =
      { outcome := DeliveryOutcome.Delivered, attempts := k,
        waits := (List.range' 1 (k - 1)).map backoffWait } := by
  unfold sendWebhookWithRetry
  rw [sendWebhookGo_skip_retryables responses (k - 1) maxRetries 1 0 [] (by omega)
    (fun i hi => hpre (1 + i) (by omega) (by omega))]
  have h1k : 1 + (k - 1) = k := by omega
  rw [h1k]
  obtain ⟨r₂, hr₂⟩ : ∃ r₂, maxRetries - (k - 1) = r₂ + 1 := ⟨maxRetries - k, by omega⟩
  rw [hr₂, sendWebhookGo_success_step responses k r₂ (0 + (k - 1)) _ hs]
  simp [DeliveryTrace.mk.injEq]
  omega

/-- Delivery hitting a 4xx response at attempt `k` after retryable failures:
Abandoned right there, with `k` attempts and no wait after the 4xx. -/
theorem deliverClientErrorAt (responses : Nat → HttpResult) (maxRetries k s : Nat)
    (hk1 : 1 ≤ k) (hk2 : k ≤ maxRetries)
    (hpre : ∀ a, 1 ≤ a → a < k → isRetryable (responses a))
    (ho : responses k = HttpResult.ok s) (h4 : 400 ≤ s) (h5 : s < 500) :
    sendWebhookWithRetry responses maxRetries =
      { outcome := DeliveryOutcome.Abandoned, attempts := k,
        waits := (List.range' 1 (k - 1)).map backoffWait } := by
  unfold sendWebhookWithRetry
  rw [sendWebhookGo_skip_retryables responses (k - 1) maxRetries 1 0 [] (by omega)
    (fun i hi => hpre (1 + i) (by omega) (by omega))]
  have h1k : 1 + (k - 1) = k := by omega
  rw [h1k]
  obtain ⟨r₂, hr₂⟩ : ∃ r₂, maxRetries - (k - 1) = r₂ + 1 := ⟨maxRetries - k, by omega⟩
  rw [hr₂, sendWebhookGo_clientError_step responses k r₂ (0 + (k - 1)) s _ ho h4 h5]
  simp [DeliveryTrace.mk.injEq]
  omega

/-- The response schedule 500, 500, 200. -/
def ex500_500_200 : Nat → HttpResult :=
  fun a => if a = 1 then HttpResult.ok 500 else if a = 2 then HttpResult.ok 500 else HttpResult.ok 200

/-- C3: retryable failures (HTTP ≥ 500 or transport failure) on attempt
`a < maxRetries` are followed by a `min(1000·2^(a−1), 5000)` ms wait before
attempt `a+1`; a 2xx response stops the loop with Delivered; all-retryable
runs exhaust the budget and are Abandoned; in particular [500, 500, 200]
with maxRetries = 3 gives 3 attempts, waits 1000 then 2000, Delivered, and
three transport timeouts give 3 attempts and Abandoned. -/
theorem c3_backoff_retry_delivery :
    (∀ a, backoffWait a = min (1000 * 2 ^ (a - 1)) 5000) ∧
    (∀ (responses : Nat → HttpResult) (attempt r acc : Nat) (waits : List Nat),
      2 ≤ r → isRetryable (responses attempt) →
      sendWebhookGo responses attempt r acc waits =
        sendWebhookGo responses (attempt + 1) (r - 1) (acc + 1)
          (waits ++ [backoffWait attempt])) ∧
    (∀ (responses : Nat → HttpResult) (maxRetries : Nat),
      (∀ a, 1 ≤ a → a ≤ maxRetries → isRetryable (responses a)) →
      sendWebhookWithRetry responses maxRetries =
        { outcome := DeliveryOutcome.Abandoned, attempts := maxRetries,
          waits := (List.range' 1 (maxRetries - 1)).map backoffWait }) ∧
    (∀ (responses : Nat → HttpResult) (maxRetries k : Nat),
      1 ≤ k → k ≤ maxRetries → (∀ a, 1 ≤ a → a < k → isRetryable (responses a)) →
      isSuccess (responses k) →
      sendWebhookWithRetry responses maxRetries =
        { outcome := DeliveryOutcome.Delivered, attempts := k,
          waits := (List.range' 1 (k - 1)).map backoffWait }) ∧
    sendWebhookWithRetry ex500_500_200 3 =
      { outcome := DeliveryOutcome.Delivered, attempts := 3, waits := [1000, 2000] } ∧
    sendWebhookWithRetry (fun _ => HttpResult.transportError) 3 =
      { outcome := DeliveryOutcome.Abandoned, attempts := 3, waits := [1000, 2000] } := by
  refine ⟨fun a => rfl, ?_, ?_, ?_, by decide, by decide⟩
  · intro responses attempt r acc waits hr h
    obtain ⟨r₂, rfl⟩ : ∃ r₂, r = r₂ + 1 := ⟨r - 1, by omega⟩
    rw [sendWebhookGo_retryable_step responses attempt r₂ acc waits h,
      if_neg (by omega : r₂ ≠ 0)]
    simp
  · intro responses maxRetries h
    unfold sendWebhookWithRetry
    rw [sendWebhookGo_all_retryable responses maxRetries 1 0 []
      (fun i hi => h (1 + i) (by omega) (by omega))]
    simp
  · exact fun responses maxRetries k hk1 hk2 hpre hs =>
      deliverSuccessAt responses maxRetries k hk1 hk2 hpre hs

/-- C3 witness: two transport failures with maxRetries = 2 exhaust the budget:
Abandoned after 2 attempts with a single 1000 ms wait. -/
theorem c3_backoff_retry_delivery_witness :
    sendWebhookWithRetry (fun _ => HttpResult.transportError) 2 =
      { outcome := DeliveryOutcome.Abandoned, attempts := 2, waits := [1000] } := by
  have h := c3_backoff_retry_delivery.2.2.1 (fun _ => HttpResult.transportError) 2
    (fun a _ _ => by simp [isRetryable])
  exact h.trans (by decide)

/-- C4: an HTTP 4xx response aborts delivery at once — Abandoned, no further
attempts, no backoff after it, regardless of the remaining budget; a single
404 yields exactly 1 send attempt and no waits. -/
theorem c4_client_error_aborts :
    (∀ (responses : Nat → HttpResult) (maxRetries k s : Nat),
      1 ≤ k → k ≤ maxRetries → (∀ a, 1 ≤ a → a < k → isRetryable (responses a)) →
      responses k = HttpResult.ok s → 400 ≤ s → s < 500 →
      sendWebhookWithRetry responses maxRetries =
        { outcome := DeliveryOutcome.Abandoned, attempts := k,
          waits := (List.range' 1 (k - 1)).map backoffWait }) ∧
    (∀ (responses : Nat → HttpResult) (maxRetries : Nat),
      1 ≤ maxRetries → responses 1 = HttpResult.ok 404 →
      sendWebhookWithRetry responses maxRetries =
        { outcome := DeliveryOutcome.Abandoned, attempts := 1, waits := [] }) := by
  constructor
  · exact fun responses maxRetries k s hk1 hk2 hpre ho h4 h5 =>
      deliverClientErrorAt responses maxRetries k s hk1 hk2 hpre ho h4 h5
  · intro responses maxRetries hm ho
    have h := deliverClientErrorAt responses maxRetries 1 404 (by omega) hm
      (fun a ha1 ha2 => absurd (lt_of_le_of_lt ha1 ha2) (by omega)) ho (by omega) (by omega)
    exact h.trans (by decide)

/-- C4 witness: the constant-404 endpoint with budget 3 gives exactly one
attempt, Abandoned, no waits. -/
theorem c4_client_error_aborts_witness :
    sendWebhookWithRetry (fun _ => HttpResult.ok 404) 3 =
      { outcome := DeliveryOutcome.Abandoned, attempts := 1, waits := [] } :=
  c4_client_error_aborts.2 (fun _ => HttpResult.ok 404) 3 (by decide) rfl

/-- C9: a resolved non-2xx response below 400 neither delivers nor abandons:
the loop moves to the next attempt with no backoff wait; a full budget of
such responses ends Abandoned after maxRetries attempts with no waits. -/
theorem c9_passthrough_responses :
    (∀ (responses : Nat → HttpResult) (attempt r acc : Nat) (waits : List Nat),
      1 ≤ r → isPassThrough (responses attempt) →
      sendWebhookGo responses attempt r acc waits =
        sendWebhookGo responses (attempt + 1) (r - 1) (acc + 1) waits) ∧
    (∀ (responses : Nat → HttpResult) (maxRetries : Nat),
      (∀ a, 1 ≤ a → a ≤ maxRetries → isPassThrough (responses a)) →
      sendWebhookWithRetry responses maxRetries =
        { outcome := DeliveryOutcome.Abandoned, attempts := maxRetries, waits := [] }) := by
  constructor
  · intro responses attempt r acc waits hr h
    obtain ⟨r₂, rfl⟩ : ∃ r₂, r = r₂ + 1 := ⟨r - 1, by omega⟩
    rw [sendWebhookGo_passThrough_step responses attempt r₂ acc waits h]
    simp
  · intro responses maxRetries h
    unfold sendWebhookWithRetry
    rw [sendWebhookGo_all_passThrough responses maxRetries 1 0 []
      (fun i hi => h (1 + i) (by omega) (by omega))]
    simp

/-- C9 witness: constant 302 responses with budget 3: three attempts, no
waits, Abandoned. -/
theorem c9_passthrough_responses_witness :
    sendWebhookWithRetry (fun _ => HttpResult.ok 302) 3 =
      { outcome := DeliveryOutcome.Abandoned, attempts := 3, waits := [] } :=
  c9_passthrough_responses.2 (fun _ => HttpResult.ok 302) 3
    (fun a _ _ => by simp [isPassThrough])

/-! ### Classifier claim theorems -/

/-- C1: when the last recorded attempt passed, the classifier assigns Flaky
iff some attempt failed or timed out and there was more than one attempt
(recording title and attempts = sequence length); otherwise it assigns
Passed. -/
theorem c1_flaky_iff_prior_failure (st : ReporterState) (e : StoreEntry) (final : TestResult)
    (hlast : e.results.getLast? = some final) (hp : final.status = TStatus.passed) :
    processEntry st e =
      if (∃ r ∈ e.results, r.status = TStatus.failed ∨ r.status = TStatus.timedOut) ∧
          1 < e.results.length then
        { st with
          testResults := { st.testResults with flaky := st.testResults.flaky + 1 },
          flakyTests :=
            st.flakyTests ++ [{ title := e.test.title, attempts := e.results.length }] }
      else
        { st with testResults := { st.testResults with passed := st.testResults.passed + 1 } } := by
  have hany : (e.results.any fun r =>
      r.status == TStatus.failed || r.status == TStatus.timedOut) = true ↔
      (∃ r ∈ e.results, r.status = TStatus.failed ∨ r.status = TStatus.timedOut) := by
    simp [List.any_eq_true, beq_iff_eq]
  simp [processEntry, hlast, hp, hany]

/-- Attempt that failed with no error info attached. -/
def exFailedResult : TestResult := { status := TStatus.failed, retry := 0, error := none }

/-- Attempt that passed on retry 1. -/
def exPassedResult : TestResult := { status := TStatus.passed, retry := 1, error := none }

/-- A test case with no known location. -/
def exTest : TestCase := { id := "t1", title := "login works", location := none }

/-- Store entry: failed once, then passed — a flaky test. -/
def exFlakyEntry : StoreEntry := { test := exTest, results := [exFailedResult, exPassedResult] }

/-- C1 witness: the failed-then-passed entry is classified Flaky with
attempts = 2. -/
theorem c1_flaky_iff_prior_failure_witness :
    processEntry initialState exFlakyEntry =
      { testResults := { initialResults with flaky := 1 },
        failedTests := [],
        flakyTests := [{ title := "login works", attempts := 2 }] } := by
  have h := c1_flaky_iff_prior_failure initialState exFlakyEntry exPassedResult rfl rfl
  exact h.trans (by decide)

/-- C2: only the last attempt's status decides the non-passed classification
(failed → Failed, skipped → Skipped, timedOut → TimedOut, whatever came
before), Failed and TimedOut both capture detail from the final attempt via
`captureFailedTest`, whose error message defaults to a fixed placeholder
when absent, whose stack is the first 3 lines of the trace joined by
newline, and whose location is `file:line` or a fixed placeholder. -/
theorem c2_last_attempt_decides (st : ReporterState) (e : StoreEntry) (final : TestResult)
    (hlast : e.results.getLast? = some final) :
    (final.status = TStatus.failed →
      processEntry st e =
        { st with
          testResults := { st.testResults with failed := st.testResults.failed + 1 },
          failedTests := st.failedTests ++ [captureFailedTest e.test final] }) ∧
    (final.status = TStatus.skipped →
      processEntry st e =
        { st with
          testResults := { st.testResults with skipped := st.testResults.skipped + 1 } }) ∧
    (final.status = TStatus.timedOut →
      processEntry st e =
        { st with
          testResults := { st.testResults with timedout := st.testResults.timedout + 1 },
          failedTests := st.failedTests ++ [captureFailedTest e.test final] }) ∧
    (∀ (t : TestCase) (r : TestResult),
      (r.error.bind TError.message = none →
        (captureFailedTest t r).error = "No error message available") ∧
      (captureFailedTest t r).stack =
        String.intercalate "\n"
          ((jsSplit ((r.error.bind TError.stack).getD "") '\n').take 3) ∧
      (captureFailedTest t r).location =
        (match t.location with
         | some loc => loc.file ++ ":" ++ toString loc.line
         | none => "Unknown location")) := by
  refine ⟨?_, ?_, ?_, ?_⟩
  · intro hf
    simp [processEntry, hlast, hf]
  · intro hs
    simp [processEntry, hlast, hs]
  · intro ht
    simp [processEntry, hlast, ht]
  · intro t r
    refine ⟨?_, rfl, rfl⟩
    intro hmsg
    simp [captureFailedTest, hmsg, jsOr]

/-- C2 witness: a single failed attempt is counted Failed and captured with
the placeholder error message, empty stack, unknown location. -/
theorem c2_last_attempt_decides_witness :
    processEntry initialState { test := exTest, results := [exFailedResult] } =
      { testResults := { initialResults with failed := 1 },
        failedTests := [{ title := "login works", error := "No error message available",
                          stack := "", location := "Unknown location" }],
        flakyTests := [] } := by
  have h := (c2_last_attempt_decides initialState
    { test := exTest, results := [exFailedResult] } exFailedResult rfl).1 rfl
  exact h.trans (by decide)

/-! ### Count partition (C5) -/

/-- The ids of the store's entries, in order. -/
def entryIds (store : List StoreEntry) : List String :=
  store.map (fun e => e.test.id)

/-- Updating results in place never changes the entry ids. -/
theorem entryIds_update (store : List StoreEntry) (t : TestCase) (result : TestResult) :
    entryIds (store.map (fun e =>
      if e.test.id == t.id then { e with results := e.results ++ [result] } else e)) =
      entryIds store := by
  unfold entryIds
  rw [List.map_map]
  apply List.map_congr_left
  intro e _
  by_cases hc : e.test.id = t.id <;> simp [hc]

/-- The `testAttempts` condition `has(testId)` as list membership. -/
theorem onTestEnd_mem_iff (store : List StoreEntry) (t : TestCase) :
    (store.any fun e => e.test.id == t.id) = true ↔ t.id ∈ entryIds store := by
  simp only [List.any_eq_true, beq_iff_eq, entryIds, List.mem_map]

/-- `onTestEnd` keeps the id list when the test is known and appends its id
otherwise. -/
theorem entryIds_onTestEnd (store : List StoreEntry) (t : TestCase) (result : TestResult) :
    entryIds (onTestEnd store t result) =
      if t.id ∈ entryIds store then entryIds store else entryIds store ++ [t.id] := by
  unfold onTestEnd
  by_cases hmem : t.id ∈ entryIds store
  · rw [if_pos ((onTestEnd_mem_iff store t).mpr hmem), if_pos hmem]
    exact entryIds_update store t result
  · rw [if_neg (fun hc => hmem ((onTestEnd_mem_iff store t).mp hc)), if_neg hmem]
    simp [entryIds]

/-- `onTestEnd` never creates an entry with an empty attempt list. -/
theorem onTestEnd_results_ne_nil (store : List StoreEntry) (t : TestCase) (result : TestResult)
    (h : ∀ e ∈ store, e.results ≠ []) :
    ∀ e ∈ onTestEnd store t result, e.results ≠ [] := by
  unfold onTestEnd
  split
  · intro e he
    obtain ⟨x, hx, rfl⟩ := List.mem_map.mp he
    by_cases hc : (x.test.id == t.id) = true <;> simp [hc]
    exact h x hx
  · intro e he
    rcases List.mem_append.mp he with h1 | h2
    · exact h e h1
    · simp only [List.mem_singleton] at h2
      subst h2
      simp

/-- Every entry of a store built from events has at least one attempt. -/
theorem buildStore_results_ne_nil (evs : List (TestCase × TestResult)) :
    ∀ store : List StoreEntry, (∀ e ∈ store, e.results ≠ []) →
      ∀ e ∈ evs.foldl (fun s ev => onTestEnd s ev.1 ev.2) store, e.results ≠ [] := by
  induction evs with
  | nil => intro store h; simpa using h
  | cons ev tl ih =>
    intro store h
    simp only [List.foldl_cons]
    exact ih (onTestEnd store ev.1 ev.2) (onTestEnd_results_ne_nil store ev.1 ev.2 h)

/-- Folding events into a store accumulates exactly the ids of the events,
as a finite set, on top of the ids already present. -/
theorem entryIds_foldl_toFinset (evs : List (TestCase × TestResult)) :
    ∀ store : List StoreEntry,
      (entryIds (evs.foldl (fun s ev => onTestEnd s ev.1 ev.2) store)).toFinset =
        (entryIds store).toFinset ∪ (evs.map (fun ev => ev.1.id)).toFinset := by
  induction evs with
  | nil => intro store; simp
  | cons ev tl ih =>
    intro store
    simp only [List.foldl_cons, List.map_cons]
    rw [ih (onTestEnd store ev.1 ev.2), entryIds_onTestEnd store ev.1 ev.2]
    by_cases hmem : ev.1.id ∈ entryIds store
    · rw [if_pos hmem, List.toFinset_cons, Finset.union_insert,
        Finset.insert_eq_self.mpr
          (Finset.mem_union_left _ (List.mem_toFinset.mpr hmem))]
    · rw [if_neg hmem, List.toFinset_append, List.toFinset_cons]
      ext y
      simp only [Finset.mem_union, List.mem_toFinset, List.toFinset_cons, Finset.mem_insert,
        List.mem_singleton, Finset.union_assoc]
      tauto

/-- The id list of a store built from events has no duplicates. -/
theorem entryIds_foldl_nodup (evs : List (TestCase × TestResult)) :
    ∀ store : List StoreEntry, (entryIds store).Nodup →
      (entryIds (evs.foldl (fun s ev => onTestEnd s ev.1 ev.2) store)).Nodup := by
  induction evs with
  | nil => intro store h; simpa using h
  | cons ev tl ih =>
    intro store h
    simp only [List.foldl_cons]
    apply ih
    rw [entryIds_onTestEnd store ev.1 ev.2]
    by_cases hmem : ev.1.id ∈ entryIds store
    · rwa [if_pos hmem]
    · rw [if_neg hmem, List.nodup_append]
      refine ⟨h, List.nodup_singleton _, fun a ha hb => ?_⟩
      rw [List.mem_singleton] at hb
      exact hmem (hb ▸ ha)

/-- `processEntry` increments exactly one of the five counters when the entry
has at least one attempt. -/
theorem sumCounts_processEntry (st : ReporterState) (e : StoreEntry) (h : e.results ≠ []) :
    sumCounts (processEntry st e).testResults = sumCounts st.testResults + 1 := by
  obtain ⟨final, hlast⟩ := Option.isSome_iff_exists.mp (List.getLast?_isSome.mpr h)
  simp only [processEntry, hlast]
  cases hst : final.status <;>
    simp only [hst, reduceCtorEq, if_true, if_false, reduceIte] <;>
    first
      | (split <;> (simp [sumCounts]; omega))
      | (simp [sumCounts]; omega)

/-- Classifying a store of nonempty entries counts each entry exactly once. -/
theorem sumCounts_foldl (store : List StoreEntry) :
    ∀ st : ReporterState, (∀ e ∈ store, e.results ≠ []) →
      sumCounts (store.foldl processEntry st).testResults =
        sumCounts st.testResults + store.length := by
  induction store with
  | nil => intro st _; simp
  | cons e tl ih =>
    intro st h
    simp only [List.foldl_cons, List.length_cons]
    rw [ih (processEntry st e) (fun x hx => h x (List.mem_cons_of_mem _ hx)),
      sumCounts_processEntry st e (h e (List.mem_cons_self _ _))]
    omega

/-- C5: after classification the five counts sum to the number of distinct
test identities that recorded at least one attempt, for every run. -/
theorem c5_counts_partition (evs : List (TestCase × TestResult)) :
    sumCounts (processTestResults (buildStore evs)).testResults =
      ((evs.map (fun ev => ev.1.id)).toFinset).card := by
  have hne : ∀ e ∈ buildStore evs, e.results ≠ [] :=
    buildStore_results_ne_nil evs [] (by simp)
  have hnodup : (entryIds (buildStore evs)).Nodup :=
    entryIds_foldl_nodup evs [] (by simp [entryIds])
  have hfin := entryIds_foldl_toFinset evs []
  have hcard : (entryIds (buildStore evs)).toFinset.card = (buildStore evs).length := by
    rw [List.toFinset_card_of_nodup hnodup]
    simp [entryIds]
  have hsum := sumCounts_foldl (buildStore evs) initialState hne
  unfold processTestResults
  rw [hsum, ← hcard]
  unfold buildStore at hfin ⊢
  rw [hfin]
  simp [entryIds, sumCounts, initialState, initialResults]

/-! ### Payload claim theorems -/

/-- C6: the reported "Total failed" fact is Failed + TimedOut; the overall
status is FAILED when that sum is positive, else UNSTABLE when Flaky is
positive, else PASSED; the theme color is the matching fixed three-way
enumeration driven by the same condition. -/
theorem c6_total_failed_status_color (tr : TestResults) :
    (summaryFacts tr).get? 2 = some ("❌ Failed:", toString (tr.failed + tr.timedout)) ∧
    (getOverallStatus tr).2 =
      (if 0 < tr.failed + tr.timedout then "FAILED"
       else if 0 < tr.flaky then "UNSTABLE" else "PASSED") ∧
    getThemeColor tr =
      (if 0 < tr.failed + tr.timedout then "dc3545"
       else if 0 < tr.flaky then "ffc107" else "28a745") ∧
    ((getOverallStatus tr).2 = "FAILED" ↔ getThemeColor tr = "dc3545") ∧
    ((getOverallStatus tr).2 = "UNSTABLE" ↔ getThemeColor tr = "ffc107") ∧
    ((getOverallStatus tr).2 = "PASSED" ↔ getThemeColor tr = "28a745") := by
  have hcond : (0 < tr.failed ∨ 0 < tr.timedout) ↔ 0 < tr.failed + tr.timedout := by omega
  refine ⟨rfl, ?_, ?_, ?_, ?_, ?_⟩ <;>
    simp only [getOverallStatus, getThemeColor] <;>
    by_cases h1 : 0 < tr.failed + tr.timedout <;>
    by_cases h2 : 0 < tr.flaky <;>
    simp [hcond, h1, h2]

/-- C7: messages up to 200 characters pass through `truncateError`
unchanged; longer ones become their first 197 characters plus a 3-character
ellipsis, for a total length of exactly 200. -/
theorem c7_truncate_error (s : String) :
    (s.length ≤ 200 → truncateError s 200 = s) ∧
    (200 < s.length →
      truncateError s 200 = s.take 197 ++ "..." ∧ (truncateError s 200).length = 200) := by
  constructor
  · intro h
    simp [truncateError, h]
  · intro h
    have hle : ¬ s.length ≤ 200 := by omega
    have htr : truncateError s 200 = s.take 197 ++ "..." := by
      simp only [truncateError, if_neg hle]
    refine ⟨htr, ?_⟩
    rw [htr, String.length_append, String.take_eq]
    have htake : (String.mk (List.take 197 s.data)).length = 197 := by
      show (List.take 197 s.data).length = 197
      rw [List.length_take]
      have hdata : 200 < s.data.length := h
      omega
    rw [htake]
    rfl

/-- C7 witness: a 250-character message truncates to 197 characters plus
"...", total length 200. -/
theorem c7_truncate_error_witness :
    truncateError (String.mk (List.replicate 250 'a')) 200 =
      String.mk (List.replicate 197 'a') ++ "..." ∧
    (truncateError (String.mk (List.replicate 250 'a')) 200).length = 200 := by
  have hlen : 200 < (String.mk (List.replicate 250 'a')).length := by
    show 200 < (List.replicate 250 'a').length
    rw [List.length_replicate]
    omega
  have h := (c7_truncate_error (String.mk (List.replicate 250 'a'))).2 hlen
  refine ⟨h.1.trans ?_, h.2⟩
  rw [String.take_eq]
  show String.mk (List.take 197 (List.replicate 250 'a')) ++ "..." =
    String.mk (List.replicate 197 'a') ++ "..."
  rw [List.take_replicate]
  norm_num

/-- C10: the pass-rate fact counts flaky tests as passing —
`(passed + flaky) / total * 100` rendered to one decimal place — and is the
fixed string "0.0" when the total is zero. -/
theorem c10_pass_rate_counts_flaky (tr : TestResults) :
    ((summaryFacts tr).get? 5 =
      some ("📈 Pass Rate:",
        (if tr.passed + tr.failed + tr.skipped + tr.flaky + tr.timedout = 0 then "0.0"
         else toFixed1 ((tr.passed + tr.flaky) * 100)
            (tr.passed + tr.failed + tr.skipped + tr.flaky + tr.timedout)) ++ "%")) ∧
    (summaryFacts { passed := 3, failed := 1, skipped := 0, flaky := 1, timedout := 0 }).get? 5 =
      some ("📈 Pass Rate:", "80.0%") ∧
    (summaryFacts { passed := 0, failed := 0, skipped := 0, flaky := 0, timedout := 0 }).get? 5 =
      some ("📈 Pass Rate:", "0.0%") := by
  refine ⟨?_, by decide, by decide⟩
  by_cases h : tr.passed + tr.failed + tr.skipped + tr.flaky + tr.timedout = 0
  · have hpos : ¬ 0 < tr.passed + tr.failed + tr.skipped + tr.flaky + tr.timedout := by omega
    simp [summaryFacts, h, hpos]
  · have hpos : 0 < tr.passed + tr.failed + tr.skipped + tr.flaky + tr.timedout := by omega
    simp [summaryFacts, h, hpos]

/-- C8: with no webhook URL configured, the run-end handler is the deliberate
skip — the delivery client is never invoked and no payload is built. -/
theorem c8_skip_without_webhook (store : List StoreEntry) (responses : Nat → HttpResult) :
    onEnd none store responses = EndOutcome.skippedNoWebhook := rfl

end TeamsReporter
